import Mathlib

/-!
Verification of the STEP-to-STL converter (`src/convert_step_to_stl.py` and
`src/blender_repair.py`) against its natural-language specification.

The Python source is shallowly embedded: geometric coordinates are rational
numbers, the opaque B-rep solid handles are natural-number identifiers, and
the external collaborators (the CAD kernel, the `admesh` subprocess, the
Blender mesh operators) appear as explicit inputs or as operator parameters,
so that every function of the repository becomes a total, executable Lean
definition.
-/

namespace StepToStl

/-- Axis-aligned bounding box of a solid, as returned by the CAD kernel's
`bbox.Get()` (`xmin, ymin, zmin, xmax, ymax, zmax`). -/
structure BBox where
  xmin : ℚ
  ymin : ℚ
  zmin : ℚ
  xmax : ℚ
  ymax : ℚ
  zmax : ℚ
deriving Repr, DecidableEq

/-- The per-solid record built by `get_solids`: the opaque solid reference
(modelled as an identifier), the derived `center_x`, and the bounding box. -/
structure SolidRec where
  solid : Nat
  center_x : ℚ
  bbox : BBox
deriving Repr, DecidableEq

/-- Embedding of `get_solids` (convert_step_to_stl.py lines 54-69).  The
`TopExp_Explorer` traversal and `BRepBndLib` box computation are external
CAD-kernel collaborators; their output is the input list of (solid reference,
bounding box) pairs, in enumeration order.  For each solid the function
stores `center_x = (xmin + xmax) / 2`. -/
def get_solids (enumerated : List (Nat × BBox)) : List SolidRec :=
  enumerated.map (fun p =>
    { solid := p.1
      center_x := (p.2.xmin + p.2.xmax) / 2
      bbox := p.2 })

/-- Python's `min` on a list of rationals: `none` on the empty list
(where Python raises `ValueError`). -/
def list_min : List ℚ → Option ℚ
  | [] => none
  | x :: xs => some (xs.foldl min x)

/-- Python's `max` on a list of rationals: `none` on the empty list
(where Python raises `ValueError`). -/
def list_max : List ℚ → Option ℚ
  | [] => none
  | x :: xs => some (xs.foldl max x)

/-- Embedding of the partition computed by `split_left_right`
(convert_step_to_stl.py lines 159-165):
`x_mid = (min(x_centers) + max(x_centers)) / 2`,
`left  = [s for s in solids if s.center_x < x_mid]`,
`right = [s for s in solids if s.center_x >= x_mid]`.
`none` corresponds to the `ValueError` Python's `min`/`max` raise on an
empty solid list.  (The subsequent meshing/export side effects of
`split_left_right` are modelled separately by `mesh_and_export`.) -/
def split_left_right (solids : List SolidRec) : Option (List SolidRec × List SolidRec) :=
  match list_min (solids.map SolidRec.center_x), list_max (solids.map SolidRec.center_x) with
  | some lo, some hi =>
    let x_mid : ℚ := (lo + hi) / 2
    some (solids.filter (fun s => decide (s.center_x < x_mid)),
          solids.filter (fun s => decide (s.center_x ≥ x_mid)))
  | _, _ => none

/-! ### The admesh subprocess repair path (`repair_stl_with_admesh`, `mesh_and_export`) -/

/-- Outcome of the external `admesh` subprocess run.  `completed` carries the
return code, captured stdout/stderr, and the STL content the tool wrote to the
output file (`none` if it wrote nothing); a timed-out or otherwise failed run
is modelled as not having produced the output file (on timeout the subprocess
is killed by `subprocess.run`). -/
inductive AdmeshOutcome where
  | completed (returncode : Int) (stdout stderr : String) (wrote : Option Nat)
  | timedOut
  | failed (msg : String)
deriving Repr, DecidableEq

/-- What `repair_stl_with_admesh` prints: warnings and advisory stat lines. -/
structure RepairLog where
  warnings : List String
  statLines : List String
deriving Repr, DecidableEq

/-- `listStartsWith pre l` is true when `pre` is an initial segment of `l`. -/
def listStartsWith : List Char → List Char → Bool
  | [], _ => true
  | _ :: _, [] => false
  | p :: ps, c :: cs => p == c && listStartsWith ps cs

/-- Python's `sub in s` substring test. -/
def containsSub (s sub : String) : Bool :=
  s.data.tails.any (fun t => listStartsWith sub.data t)

/-- Python's `str.lower()` (ASCII case folding, which covers admesh's
output), character by character. -/
def str_to_lower (s : String) : String :=
  ⟨s.data.map Char.toLower⟩

/-- Python's `s[:n]` string truncation. -/
def str_take (n : Nat) (s : String) : String :=
  ⟨s.data.take n⟩

/-- Splitting a captured stdout into lines at the newline character,
Python's `s.split('\n')`: empty pieces are kept. -/
def split_chars (sep : Char) : List Char → List Char → List (List Char)
  | [], acc => [acc.reverse]
  | c :: cs, acc =>
    if c == sep then acc.reverse :: split_chars sep cs []
    else split_chars sep cs (c :: acc)

/-- Python's `s.split('\n')` on a string. -/
def split_lines (s : String) : List String :=
  (split_chars (Char.ofNat 10) s.data []).map (fun l => ⟨l⟩)

/-- The fixed admesh command line built in `repair_stl_with_admesh`
(convert_step_to_stl.py lines 92-103). -/
def admesh_cmd (input_file output_file : String) : List String :=
  ["admesh", "-n", "-f", "-d", "-v", "-u", "-i", "3", "-t", "0.001",
   "-b", output_file, input_file]

/-- Wall-clock timeout, in seconds, passed to `subprocess.run` (line 106). -/
def admesh_timeout : Nat := 300

/-- The stdout filter of lines 113-115: a line is echoed as an advisory stat
when its lowercase form contains "edges fixed", "facets" or "normal". -/
def is_stat_line (line : String) : Bool :=
  containsSub (str_to_lower line) "edges fixed" ||
    containsSub (str_to_lower line) "facets" ||
    containsSub (str_to_lower line) "normal"

/-- `subprocess.run(cmd, ..., timeout=300)` as seen by the caller: a completed
run returns the `CompletedProcess` data, a timeout raises `TimeoutExpired`
(modelled as the error string "TimeoutExpired"), any other failure raises
some other exception. -/
def run_admesh : AdmeshOutcome → Except String (Int × String × String)
  | .completed rc out err _ => .ok (rc, out, err)
  | .timedOut => .error "TimeoutExpired"
  | .failed msg => .error msg

/-- Embedding of `repair_stl_with_admesh` (convert_step_to_stl.py lines
105-119).  The `try`/`except subprocess.TimeoutExpired`/`except Exception`
structure becomes a match on `run_admesh`; the function's result is the log it
prints, and an `Except.error` result would mean an exception escaping to the
caller. -/
def repair_stl_with_admesh (o : AdmeshOutcome) : Except String RepairLog :=
  match run_admesh o with
  | .ok (rc, out, err) =>
    if rc ≠ 0 then
      .ok { warnings := ["Warning: admesh returned " ++ toString rc] ++
              (if err ≠ "" then ["stderr: " ++ str_take 200 err] else [])
            statLines := [] }
    else
      .ok { warnings := []
            statLines := (split_lines out).filter is_stat_line }
  | .error e =>
    if e = "TimeoutExpired" then
      .ok { warnings := ["Warning: admesh timed out"], statLines := [] }
    else
      .ok { warnings := ["Warning: admesh failed: " ++ e], statLines := [] }

/-- The two files `mesh_and_export` touches: the temporary pre-repair STL and
the destination file.  Contents are abstract mesh identifiers. -/
structure FS where
  temp : Option Nat
  output : Option Nat
deriving Repr, DecidableEq

/-- What the admesh subprocess wrote to the output file. -/
def admesh_writes : AdmeshOutcome → Option Nat
  | .completed _ _ _ w => w
  | .timedOut => none
  | .failed _ => none

/-- Embedding of `mesh_and_export` (convert_step_to_stl.py lines 122-156).
Inputs model the external collaborators: `meshingOk` is
`BRepMesh_IncrementalMesh.IsDone()`, `tempWriteOk` is `StlAPI_Writer.Write`'s
result, `preMesh` the tessellated pre-repair mesh written to the temp file,
`outputBefore` the destination file's prior content, and `o` the admesh run's
outcome.  Returns the printed warnings and the final file state, or
`Except.error` when the Python function raises. -/
def mesh_and_export (meshingOk tempWriteOk : Bool) (preMesh : Nat)
    (outputBefore : Option Nat) (o : AdmeshOutcome) :
    Except String (List String × FS) :=
  if meshingOk = false then .error "Meshing failed"
  else if tempWriteOk = false then .error "Failed to save temp STL"
  else
    match repair_stl_with_admesh o with
    | .error e => .error e
    | .ok log =>
      let afterRepair : FS :=
        { temp := some preMesh
          output := match admesh_writes o with
            | some c => some c
            | none => outputBefore }
      let afterUnlink : FS := { afterRepair with temp := none }
      let warns := log.warnings ++
        (if afterUnlink.output.isSome then []
         else ["Warning: Output file not created"])
      .ok (warns, afterUnlink)

/-- The destination file's content after a `mesh_and_export` run
(`none` when the run raised or left no destination file). -/
def output_after (r : Except String (List String × FS)) : Option Nat :=
  match r with
  | .ok (_, fs) => fs.output
  | .error _ => none

/-- The subprocess outcomes the spec calls failures: timeout, non-zero exit
code, or any other subprocess error. -/
def subprocess_failed : AdmeshOutcome → Bool
  | .completed rc _ _ _ => rc != 0
  | .timedOut => true
  | .failed _ => true

/-! ### The in-process Blender repair pipeline (`blender_repair.py`, `repair_mesh`) -/

/-- Triangle mesh as held by the Blender host: vertices and edges are
identifiers, faces are triples of vertex identifiers (Blender geometry
references its vertices directly, so deleting unrelated vertices leaves
faces untouched). -/
structure Mesh where
  vertices : List Nat
  edges : List (Nat × Nat)
  faces : List (Nat × Nat × Nat)
deriving Repr, DecidableEq

/-- `v` is one of the three corners of face `f`. -/
def vertex_in_face (v : Nat) (f : Nat × Nat × Nat) : Bool :=
  v == f.1 || v == f.2.1 || v == f.2.2

/-- `v` is referenced by some face of `m`. -/
def vertex_referenced (m : Mesh) (v : Nat) : Bool :=
  m.faces.any (vertex_in_face v)

/-- The three boundary edges of a triangular face. -/
def face_edges (f : Nat × Nat × Nat) : List (Nat × Nat) :=
  [(f.1, f.2.1), (f.2.1, f.2.2), (f.2.2, f.1)]

/-- `e` occurs (in either orientation) as an edge of some face of `m`. -/
def edge_referenced (m : Mesh) (e : Nat × Nat) : Bool :=
  m.faces.any (fun f =>
    (face_edges f).any (fun d => (d.1 == e.1 && d.2 == e.2) || (d.1 == e.2 && d.2 == e.1)))

/-- Modelled from the spec: the external Blender operator
`bpy.ops.mesh.delete_loose(use_verts, use_edges, use_faces)` under the
contract of spec stage 4 — "delete vertices and edges not referenced by any
face".  The repository's only call (blender_repair.py line 43) passes
`use_faces=False`, so face deletion is outside the model: faces are kept
unconditionally. -/
def delete_loose (useVerts useEdges : Bool) (m : Mesh) : Mesh :=
  { vertices := if useVerts then m.vertices.filter (vertex_referenced m) else m.vertices
    edges := if useEdges then m.edges.filter (edge_referenced m) else m.edges
    faces := m.faces }

/-- The external Blender mesh operators used by `repair_mesh`, as abstract
collaborators: each is an arbitrary total mesh transformer (selection state is
folded into the transformers).  `print3d_clean_non_manifold` is `none` when
the 3D Print Toolbox capability is unavailable in the hosting environment
(the operator raises and the `except` branch runs). -/
structure BlenderOps where
  remove_doubles : ℚ → Mesh → Mesh
  normals_make_consistent : Mesh → Mesh
  fill_holes : Nat → Mesh → Mesh
  select_non_manifold : Mesh → Mesh
  dissolve_degenerate : ℚ → Mesh → Mesh
  print3d_clean_non_manifold : Option (Mesh → Mesh)

/-- Threshold of stage 1, `bpy.ops.mesh.remove_doubles(threshold=0.0001)`
(blender_repair.py line 34). -/
def remove_doubles_threshold : ℚ := 1 / 10000

/-- Maximum hole size of stage 3, `bpy.ops.mesh.fill_holes(sides=100)`
(blender_repair.py line 40). -/
def fill_holes_sides : Nat := 100

/-- Threshold of the stage-5 fallback,
`bpy.ops.mesh.dissolve_degenerate(threshold=0.0001)` (blender_repair.py
line 54). -/
def dissolve_degenerate_threshold : ℚ := 1 / 10000

/-- Stages 1-4 of `repair_mesh` (blender_repair.py lines 33-43). -/
def mesh_after_stage4 (ops : BlenderOps) (m : Mesh) : Mesh :=
  delete_loose true true
    (ops.fill_holes fill_holes_sides
      (ops.normals_make_consistent
        (ops.remove_doubles remove_doubles_threshold m)))

/-- Stage 5 of `repair_mesh` (blender_repair.py lines 45-54): try the 3D
Print Toolbox operator; when the capability is unavailable, fall back to
selecting non-manifold edges and dissolving degenerate geometry. -/
def manifold_step (ops : BlenderOps) (m : Mesh) : Mesh :=
  match ops.print3d_clean_non_manifold with
  | some clean => clean m
  | none => ops.dissolve_degenerate dissolve_degenerate_threshold (ops.select_non_manifold m)

/-- Result of the repair pipeline.  The `repairError` constructor is the
spec's `RepairError` (its stated fatal condition: all geometry lost); it is
part of the observation space so that the spec's error contract can be stated
against the code. -/
inductive RepairOutcome where
  | ok (m : Mesh)
  | repairError
deriving Repr, DecidableEq

/-- Embedding of the repair-stage sequence of `repair_mesh` (blender_repair.py
lines 30-58): merge by distance, make normals consistent, fill holes, delete
loose geometry, manifold repair with fallback, final normal pass. -/
def repair_mesh (ops : BlenderOps) (m : Mesh) : RepairOutcome :=
  .ok (ops.normals_make_consistent (manifold_step ops (mesh_after_stage4 ops m)))

/-! ### Ordinal Extract -/

/-- Modelled from the spec: the Ordinal Extract partition variant
(spec 4.2) has no implementation under `src/`; per the spec it produces the
singleton group at `index` and the remaining solids in original order, and
requires `0 <= index < length(solids)` (`IndexError`, modelled as `none`,
otherwise). -/
def ordinal_extract (solids : List SolidRec) (index : Nat) :
    Option (List SolidRec × List SolidRec) :=
  if h : index < solids.length then
    some ([solids.get ⟨index, h⟩], solids.eraseIdx index)
  else
    none

/-- A bounding box used by concrete test inputs: x from `a` to `b`, unit
extent in y and z. -/
def mkBox (a b : ℚ) : BBox :=
  { xmin := a, ymin := 0, zmin := 0, xmax := b, ymax := 1, zmax := 1 }

/-- The four-solid scenario of the spec: bounding boxes whose x-midpoints
are 0, 2, 5 and 7. -/
def demo_solids : List SolidRec :=
  get_solids [(0, mkBox (-1) 1), (1, mkBox 1 3), (2, mkBox 4 6), (3, mkBox 6 8)]

/-- The expected low group of the scenario: the solids with centroids 0 and 2. -/
def demo_low : List SolidRec :=
  [⟨0, 0, mkBox (-1) 1⟩, ⟨1, 2, mkBox 1 3⟩]

/-- The expected high group of the scenario: the solids with centroids 5 and 7. -/
def demo_high : List SolidRec :=
  [⟨2, 5, mkBox 4 6⟩, ⟨3, 7, mkBox 6 8⟩]

/-- Concrete instantiation of the Blender operators in which every external
operator leaves the mesh unchanged and the 3D Print Toolbox is available. -/
def noopOps : BlenderOps :=
  { remove_doubles := fun _ m => m
    normals_make_consistent := fun m => m
    fill_holes := fun _ m => m
    select_non_manifold := fun m => m
    dissolve_degenerate := fun _ m => m
    print3d_clean_non_manifold := some (fun m => m) }

/-- Concrete instantiation of the Blender operators in which the 3D Print
Toolbox is unavailable and the fallback operators leave the mesh unchanged. -/
def fallbackOps : BlenderOps :=
  { noopOps with print3d_clean_non_manifold := none }

/-- An empty mesh (zero vertices, edges and faces). -/
def emptyMesh : Mesh := { vertices := [], edges := [], faces := [] }

/-- The centroid-level image of `split_left_right`: the same min/max/midpoint
computation and the same two filters, applied to the bare centroid list.
Used to state that the split decision is a function of the centroids alone. -/
def split_centers (centers : List ℚ) : Option (List ℚ × List ℚ) :=
  match list_min centers, list_max centers with
  | some lo, some hi =>
    let x_mid : ℚ := (lo + hi) / 2
    some (centers.filter (fun c => decide (c < x_mid)),
          centers.filter (fun c => decide (c ≥ x_mid)))
  | _, _ => none

/-- Seventeen solids with distinct centroids, the Ordinal Extract scenario. -/
def seventeen_solids : List SolidRec :=
  (List.range 17).map (fun i => ⟨i, (i : ℚ), mkBox (i : ℚ) ((i : ℚ) + 1)⟩)

/-- A mesh with one face over vertices 0,1,2, a loose vertex 3, a face edge
(0,1) and a loose edge (2,3). -/
def demo_mesh : Mesh :=
  { vertices := [0, 1, 2, 3], edges := [(0, 1), (2, 3)], faces := [(0, 1, 2)] }

/-! ### Helper lemmas -/

theorem foldl_min_le (xs : List ℚ) : ∀ x : ℚ,
    xs.foldl min x ≤ x ∧ ∀ y ∈ xs, xs.foldl min x ≤ y := by
  induction xs with
  | nil => intro x; exact ⟨le_refl x, by simp⟩
  | cons a as ih =>
    intro x
    simp only [List.foldl_cons]
    obtain ⟨h1, h2⟩ := ih (min x a)
    refine ⟨le_trans h1 (min_le_left x a), ?_⟩
    intro y hy
    rcases List.mem_cons.mp hy with h | h
    · rw [h]; exact le_trans h1 (min_le_right x a)
    · exact h2 y h

theorem foldl_min_mem (xs : List ℚ) : ∀ x : ℚ,
    xs.foldl min x = x ∨ xs.foldl min x ∈ xs := by
  induction xs with
  | nil => intro x; exact Or.inl rfl
  | cons a as ih =>
    intro x
    simp only [List.foldl_cons]
    rcases ih (min x a) with h | h
    · rcases min_choice x a with hc | hc
      · exact Or.inl (by rw [h, hc])
      · exact Or.inr (by rw [h, hc]; exact List.mem_cons_self a as)
    · exact Or.inr (List.mem_cons_of_mem a h)

theorem foldl_max_ge (xs : List ℚ) : ∀ x : ℚ,
    x ≤ xs.foldl max x ∧ ∀ y ∈ xs, y ≤ xs.foldl max x := by
  induction xs with
  | nil => intro x; exact ⟨le_refl x, by simp⟩
  | cons a as ih =>
    intro x
    simp only [List.foldl_cons]
    obtain ⟨h1, h2⟩ := ih (max x a)
    refine ⟨le_trans (le_max_left x a) h1, ?_⟩
    intro y hy
    rcases List.mem_cons.mp hy with h | h
    · rw [h]; exact le_trans (le_max_right x a) h1
    · exact h2 y h

theorem foldl_max_mem (xs : List ℚ) : ∀ x : ℚ,
    xs.foldl max x = x ∨ xs.foldl max x ∈ xs := by
  induction xs with
  | nil => intro x; exact Or.inl rfl
  | cons a as ih =>
    intro x
    simp only [List.foldl_cons]
    rcases ih (max x a) with h | h
    · rcases max_choice x a with hc | hc
      · exact Or.inl (by rw [h, hc])
      · exact Or.inr (by rw [h, hc]; exact List.mem_cons_self a as)
    · exact Or.inr (List.mem_cons_of_mem a h)

/-- `list_min` returns a member of the list that bounds it from below. -/
theorem list_min_spec {l : List ℚ} {m : ℚ} (h : list_min l = some m) :
    m ∈ l ∧ ∀ x ∈ l, m ≤ x := by
  cases l with
  | nil => simp [list_min] at h
  | cons a as =>
    simp only [list_min, Option.some.injEq] at h
    subst h
    constructor
    · rcases foldl_min_mem as a with hm | hm
      · rw [hm]; exact List.mem_cons_self a as
      · exact List.mem_cons_of_mem a hm
    · intro x hx
      obtain ⟨h1, h2⟩ := foldl_min_le as a
      rcases List.mem_cons.mp hx with hxa | hxas
      · rw [hxa]; exact h1
      · exact h2 x hxas

/-- `list_max` returns a member of the list that bounds it from above. -/
theorem list_max_spec {l : List ℚ} {m : ℚ} (h : list_max l = some m) :
    m ∈ l ∧ ∀ x ∈ l, x ≤ m := by
  cases l with
  | nil => simp [list_max] at h
  | cons a as =>
    simp only [list_max, Option.some.injEq] at h
    subst h
    constructor
    · rcases foldl_max_mem as a with hm | hm
      · rw [hm]; exact List.mem_cons_self a as
      · exact List.mem_cons_of_mem a hm
    · intro x hx
      obtain ⟨h1, h2⟩ := foldl_max_ge as a
      rcases List.mem_cons.mp hx with hxa | hxas
      · rw [hxa]; exact h1
      · exact h2 x hxas

/-- The two split predicates are complementary, Boolean form. -/
theorem decide_ge_eq_not_decide_lt (a b : ℚ) :
    decide (a ≥ b) = !decide (a < b) := by
  simp [ge_iff_le, ← not_lt, decide_not]

/-- `split_left_right` on a list whose centroids have a min and a max is the
pair of filters against the midpoint of those two values. -/
theorem split_left_right_eq (solids : List SolidRec) (lo hi : ℚ)
    (hmin : list_min (solids.map SolidRec.center_x) = some lo)
    (hmax : list_max (solids.map SolidRec.center_x) = some hi) :
    split_left_right solids =
      some (solids.filter (fun s => decide (s.center_x < (lo + hi) / 2)),
            solids.filter (fun s => decide (s.center_x ≥ (lo + hi) / 2))) := by
  unfold split_left_right
  rw [hmin, hmax]

/-- The two filters of the split are disjoint and cover the filtered list. -/
theorem filter_lt_ge_partition (l : List SolidRec) (m : ℚ) :
    ((l.filter (fun s => decide (s.center_x < m))) ++
        (l.filter (fun s => decide (s.center_x ≥ m)))).Perm l ∧
      ∀ s, s ∈ l.filter (fun s => decide (s.center_x < m)) →
        s ∉ l.filter (fun s => decide (s.center_x ≥ m)) := by
  constructor
  · have hc : l.filter (fun s => decide (s.center_x ≥ m)) =
        l.filter (fun s => !decide (s.center_x < m)) :=
      List.filter_congr (fun s _ => decide_ge_eq_not_decide_lt _ _)
    rw [hc]
    exact List.filter_append_perm _ _
  · intro s hsl hsr
    rw [List.mem_filter] at hsl hsr
    have h1 := of_decide_eq_true hsl.2
    have h2 := of_decide_eq_true hsr.2
    exact absurd h1 (not_lt.mpr h2)

/-! ### Claim theorems -/

/-- C1: For every non-empty list of solids, Spatial Split produces two groups
(low and high) that are disjoint and whose union equals the input list: no
solid is dropped and no solid is placed in both groups. -/
theorem C1_split_partition (solids : List SolidRec) (h : solids ≠ []) :
    ∃ left right, split_left_right solids = some (left, right) ∧
      (left ++ right).Perm solids ∧
      ∀ s, s ∈ left → s ∉ right := by
  cases solids with
  | nil => exact absurd rfl h
  | cons a as =>
    have hmin : list_min ((a :: as).map SolidRec.center_x) =
        some ((as.map SolidRec.center_x).foldl min a.center_x) := rfl
    have hmax : list_max ((a :: as).map SolidRec.center_x) =
        some ((as.map SolidRec.center_x).foldl max a.center_x) := rfl
    obtain ⟨hperm, hdisj⟩ := filter_lt_ge_partition (a :: as)
      (((as.map SolidRec.center_x).foldl min a.center_x +
        (as.map SolidRec.center_x).foldl max a.center_x) / 2)
    exact ⟨_, _, split_left_right_eq (a :: as) _ _ hmin hmax, hperm, hdisj⟩

/-- Concrete instance of C1: the four-solid demo list splits into two groups
that are disjoint and together a permutation of the input. -/
theorem C1_split_partition_witness :
    demo_solids ≠ [] ∧
    ∃ left right, split_left_right demo_solids = some (left, right) ∧
      (left ++ right).Perm demo_solids ∧
      ∀ s, s ∈ left → s ∉ right :=
  ⟨by simp [demo_solids, get_solids], C1_split_partition demo_solids (by simp [demo_solids, get_solids])⟩

/-- C2: Spatial Split computes `mid = (min(centroid) + max(centroid)) / 2`
over the solids' centroids and assigns a solid to the low group exactly when
its centroid is strictly less than `mid`, otherwise (ties included) to the
high group; for centroids 0, 2, 5, 7 the midpoint is 3.5, the low group is
the solids at 0 and 2 and the high group the solids at 5 and 7. -/
theorem C2_split_midpoint :
    (∀ solids left right, split_left_right solids = some (left, right) →
      ∃ lo hi, lo ∈ solids.map SolidRec.center_x ∧ hi ∈ solids.map SolidRec.center_x ∧
        (∀ c ∈ solids.map SolidRec.center_x, lo ≤ c ∧ c ≤ hi) ∧
        (∀ s, s ∈ left ↔ s ∈ solids ∧ s.center_x < (lo + hi) / 2) ∧
        (∀ s, s ∈ right ↔ s ∈ solids ∧ s.center_x ≥ (lo + hi) / 2)) ∧
    list_min (demo_solids.map SolidRec.center_x) = some 0 ∧
    list_max (demo_solids.map SolidRec.center_x) = some 7 ∧
    split_left_right demo_solids = some (demo_low, demo_high) ∧
    demo_low.map SolidRec.center_x = [0, 2] ∧
    demo_high.map SolidRec.center_x = [5, 7] := by
  refine ⟨?_, ?_, ?_, ?_, ?_, ?_⟩
  · intro solids left right h
    cases solids with
    | nil => simp [split_left_right, list_min] at h
    | cons a as =>
      have hmin : list_min ((a :: as).map SolidRec.center_x) =
          some ((as.map SolidRec.center_x).foldl min a.center_x) := rfl
      have hmax : list_max ((a :: as).map SolidRec.center_x) =
          some ((as.map SolidRec.center_x).foldl max a.center_x) := rfl
      have hs := split_left_right_eq (a :: as) _ _ hmin hmax
      rw [h] at hs
      simp only [Option.some.injEq, Prod.mk.injEq] at hs
      obtain ⟨hl, hr⟩ := hs
      subst hl
      subst hr
      refine ⟨_, _, (list_min_spec hmin).1, (list_max_spec hmax).1, ?_, ?_, ?_⟩
      · exact fun c hc => ⟨(list_min_spec hmin).2 c hc, (list_max_spec hmax).2 c hc⟩
      · intro s
        rw [List.mem_filter]
        simp only [decide_eq_true_eq]
      · intro s
        rw [List.mem_filter]
        simp only [decide_eq_true_eq]
  · norm_num [demo_solids, get_solids, mkBox, list_min, min_def]
  · norm_num [demo_solids, get_solids, mkBox, list_max, max_def]
  · norm_num [split_left_right, demo_solids, demo_low, demo_high, get_solids, mkBox,
      list_min, list_max, min_def, max_def, List.filter]
  · norm_num [demo_low, mkBox]
  · norm_num [demo_high, mkBox]

/-- Concrete instance of C2: the midpoint rule applied to the four-solid
scenario with centroids 0, 2, 5 and 7. -/
theorem C2_split_midpoint_witness :
    ∃ lo hi, lo ∈ demo_solids.map SolidRec.center_x ∧
      hi ∈ demo_solids.map SolidRec.center_x ∧
      (∀ c ∈ demo_solids.map SolidRec.center_x, lo ≤ c ∧ c ≤ hi) ∧
      (∀ s, s ∈ demo_low ↔ s ∈ demo_solids ∧ s.center_x < (lo + hi) / 2) ∧
      (∀ s, s ∈ demo_high ↔ s ∈ demo_solids ∧ s.center_x ≥ (lo + hi) / 2) :=
  C2_split_midpoint.1 demo_solids demo_low demo_high C2_split_midpoint.2.2.2.1

/-- C3, counterexample: when admesh times out on a fresh destination, the job
does log a warning and complete successfully, but the destination file ends
up holding nothing — not the pre-repair mesh (here mesh `7`), which lived
only in the deleted temp file. -/
theorem C3_timeout_counterexample :
    mesh_and_export true true 7 none AdmeshOutcome.timedOut =
      Except.ok (["Warning: admesh timed out", "Warning: Output file not created"],
        ({ temp := none, output := none } : FS)) ∧
    output_after (mesh_and_export true true 7 none AdmeshOutcome.timedOut) ≠ some 7 := by
  exact ⟨rfl, by decide⟩

/-- C3, amended: on an admesh timeout the job logs a warning and the overall
run still succeeds (no exception reaches the caller), but the pre-repair mesh
is not exported — the temp file holding it is deleted and the destination is
left exactly as it was before the attempt. -/
theorem C3_timeout_behavior (preMesh : Nat) (outputBefore : Option Nat) :
    mesh_and_export true true preMesh outputBefore AdmeshOutcome.timedOut =
      Except.ok (["Warning: admesh timed out"] ++
          (if outputBefore.isSome then [] else ["Warning: Output file not created"]),
        { temp := none, output := outputBefore }) := by
  cases outputBefore <;> rfl

/-- Concrete instance of the amended C3: timeout with a pre-existing
destination file `3` leaves that file untouched and raises nothing. -/
theorem C3_timeout_behavior_witness :
    mesh_and_export true true 5 (some 3) AdmeshOutcome.timedOut =
      Except.ok (["Warning: admesh timed out"],
        ({ temp := none, output := some 3 } : FS)) := by
  simpa using C3_timeout_behavior 5 (some 3)

/-- C4: the subprocess repair operation returns normally for every subprocess
outcome — timeout, non-zero exit code, or other failure — and reports each
such condition as a warning. -/
theorem C4_repair_absorbs_failures (o : AdmeshOutcome) :
    ∃ log, repair_stl_with_admesh o = Except.ok log ∧
      (subprocess_failed o = true → log.warnings ≠ []) := by
  cases o with
  | completed rc out err w =>
    by_cases hrc : rc = 0
    · subst hrc
      exact ⟨_, rfl, by simp [subprocess_failed]⟩
    · have hrep : repair_stl_with_admesh (.completed rc out err w) =
          .ok { warnings := ["Warning: admesh returned " ++ toString rc] ++
                  (if err ≠ "" then ["stderr: " ++ str_take 200 err] else [])
                statLines := [] } := by
        simp only [repair_stl_with_admesh, run_admesh]
        rw [if_pos hrc]
      exact ⟨_, hrep, fun _ => by simp⟩
  | timedOut => exact ⟨_, rfl, fun _ => by simp⟩
  | failed msg =>
    by_cases hm : msg = "TimeoutExpired"
    · subst hm
      exact ⟨_, rfl, fun _ => by simp⟩
    · have hrep : repair_stl_with_admesh (.failed msg) =
          .ok { warnings := ["Warning: admesh failed: " ++ msg], statLines := [] } := by
        simp only [repair_stl_with_admesh, run_admesh]
        rw [if_neg hm]
      exact ⟨_, hrep, fun _ => by simp⟩

/-- Concrete instance of C4: the timed-out run is absorbed into a warning. -/
theorem C4_repair_absorbs_failures_witness :
    subprocess_failed AdmeshOutcome.timedOut = true ∧
    ∃ log, repair_stl_with_admesh AdmeshOutcome.timedOut = Except.ok log ∧
      log.warnings ≠ [] := by
  refine ⟨rfl, ?_⟩
  obtain ⟨log, hok, hw⟩ := C4_repair_absorbs_failures AdmeshOutcome.timedOut
  exact ⟨log, hok, hw rfl⟩

/-- C5: the repair path invokes admesh with exactly the fixed argument set
`-n -f -d -v -u -i 3 -t 0.001 -b <output> <input>`, enforces a 300-second
timeout, and on exit code 0 scans stdout for advisory lines containing
"edges fixed", "facets" or "normal". -/
theorem C5_admesh_invocation :
    (∀ input_file output_file, admesh_cmd input_file output_file =
      ["admesh", "-n", "-f", "-d", "-v", "-u", "-i", "3", "-t", "0.001",
        "-b", output_file, input_file]) ∧
    admesh_timeout = 300 ∧
    (∀ out err w, repair_stl_with_admesh (AdmeshOutcome.completed 0 out err w) =
      Except.ok { warnings := [], statLines := (split_lines out).filter is_stat_line }) ∧
    (∀ line, is_stat_line line = true ↔
      (containsSub (str_to_lower line) "edges fixed" = true ∨
        containsSub (str_to_lower line) "facets" = true ∨
        containsSub (str_to_lower line) "normal" = true)) := by
  refine ⟨fun _ _ => rfl, rfl, fun _ _ _ => rfl, fun line => ?_⟩
  simp [is_stat_line, Bool.or_eq_true, or_assoc]

/-- Concrete instance of C5: the command line for a concrete file pair, and the
stdout scan keeping exactly the "edges fixed"/"facets" lines of a sample
admesh transcript. -/
theorem C5_admesh_invocation_witness :
    admesh_cmd "input.stl" "output.stl" =
      ["admesh", "-n", "-f", "-d", "-v", "-u", "-i", "3", "-t", "0.001",
        "-b", "output.stl", "input.stl"] ∧
    repair_stl_with_admesh
        (AdmeshOutcome.completed 0 "2 edges fixed\ndone\nReversed 3 facets" "" (some 1)) =
      Except.ok { warnings := [], statLines := ["2 edges fixed", "Reversed 3 facets"] } := by
  refine ⟨C5_admesh_invocation.1 "input.stl" "output.stl", ?_⟩
  rw [C5_admesh_invocation.2.2.1]
  simp only [Except.ok.injEq]
  decide

/-- C6, counterexample: a mesh with zero faces after stage 4 does not raise
`RepairError` — the pipeline completes anyway (there is no zero-face check
anywhere in `repair_mesh`). -/
theorem C6_zero_faces_counterexample :
    (mesh_after_stage4 noopOps emptyMesh).faces = [] ∧
    repair_mesh noopOps emptyMesh ≠ RepairOutcome.repairError := by
  exact ⟨rfl, by decide⟩

/-- C6, amended: the in-process repair pipeline never fails with
`RepairError`; it runs all six stages to completion for every input mesh and
every behaviour of the external Blender operators (in particular even when
all geometry is gone after stage 4), the only absorbed stage failure being
the manifold-repair capability fallback. -/
theorem C6_repair_never_fatal (ops : BlenderOps) (m : Mesh) :
    ∃ m2, repair_mesh ops m = RepairOutcome.ok m2 :=
  ⟨_, rfl⟩

/-- Concrete instance of the amended C6: the pipeline completes on the empty
mesh with the capability-fallback operators. -/
theorem C6_repair_never_fatal_witness :
    ∃ m2, repair_mesh fallbackOps emptyMesh = RepairOutcome.ok m2 :=
  C6_repair_never_fatal fallbackOps emptyMesh

/-- C7: the loose-geometry removal stage (stage 4, `delete_loose` with
`use_verts=True, use_edges=True, use_faces=False`) deletes exactly the
vertices and edges not referenced by any face, and leaves the face list
unchanged. -/
theorem C7_delete_loose_frame (m : Mesh) :
    (delete_loose true true m).faces = m.faces ∧
    (∀ v, v ∈ (delete_loose true true m).vertices ↔
      v ∈ m.vertices ∧ vertex_referenced m v = true) ∧
    (∀ e, e ∈ (delete_loose true true m).edges ↔
      e ∈ m.edges ∧ edge_referenced m e = true) := by
  refine ⟨rfl, fun v => ?_, fun e => ?_⟩
  · simp [delete_loose, List.mem_filter]
  · simp [delete_loose, List.mem_filter]

/-- Concrete instance of C7: on `demo_mesh` the stage drops the loose vertex
3 and the loose edge (2,3) and keeps the face list. -/
theorem C7_delete_loose_frame_witness :
    (delete_loose true true demo_mesh).vertices = [0, 1, 2] ∧
    (delete_loose true true demo_mesh).edges = [(0, 1)] ∧
    (delete_loose true true demo_mesh).faces = demo_mesh.faces := by
  exact ⟨by decide, by decide, (C7_delete_loose_frame demo_mesh).1⟩

/-- C8: the manifold-repair stage is decided by the call-time capability
value: when the preferred operator is available it is applied; when it is
unavailable the stage selects non-manifold edges and dissolves degenerate
geometry at the stage-1 tolerance; and in either case the pipeline completes
without a fatal error. -/
theorem C8_manifold_capability (ops : BlenderOps) (m : Mesh) :
    dissolve_degenerate_threshold = remove_doubles_threshold ∧
    (ops.print3d_clean_non_manifold = none →
      manifold_step ops m =
        ops.dissolve_degenerate remove_doubles_threshold (ops.select_non_manifold m)) ∧
    (∀ clean, ops.print3d_clean_non_manifold = some clean →
      manifold_step ops m = clean m) ∧
    (∃ m2, repair_mesh ops m = RepairOutcome.ok m2) := by
  refine ⟨rfl, ?_, ?_, ⟨_, rfl⟩⟩
  · intro h
    unfold manifold_step
    rw [h]
    rfl
  · intro clean h
    unfold manifold_step
    rw [h]

/-- Concrete instance of C8: with the capability absent, the stage takes the
fallback path and the pipeline still completes. -/
theorem C8_manifold_capability_witness :
    manifold_step fallbackOps emptyMesh =
      fallbackOps.dissolve_degenerate remove_doubles_threshold
        (fallbackOps.select_non_manifold emptyMesh) ∧
    ∃ m2, repair_mesh fallbackOps emptyMesh = RepairOutcome.ok m2 := by
  have h := C8_manifold_capability fallbackOps emptyMesh
  exact ⟨h.2.1 rfl, h.2.2.2⟩

/-- Reinserting the extracted element at its index undoes the removal. -/
theorem insertIdx_get_eraseIdx {α : Type} : ∀ (l : List α) (i : Nat) (h : i < l.length),
    List.insertIdx i (l.get ⟨i, h⟩) (l.eraseIdx i) = l := by
  intro l
  induction l with
  | nil => intro i h; simp at h
  | cons a as ih =>
    intro i h
    cases i with
    | zero => simp [List.insertIdx_zero, List.eraseIdx]
    | succ n =>
      simp only [List.eraseIdx_cons_succ, List.get_cons_succ, List.insertIdx_succ_cons]
      exact congrArg (List.cons a) (ih n (Nat.lt_of_succ_lt_succ h))

/-- C9: for every valid index, Ordinal Extract yields the singleton at that
index plus the remainder in original relative order, and reinserting the
extracted solid at its index reconstructs the original list. -/
theorem C9_ordinal_extract_reconstructs (solids : List SolidRec) (index : Nat)
    (h : index < solids.length) :
    ∃ ext rest, ordinal_extract solids index = some (ext, rest) ∧
      ext = [solids.get ⟨index, h⟩] ∧
      rest = solids.eraseIdx index ∧
      rest.length = solids.length - 1 ∧
      List.insertIdx index (solids.get ⟨index, h⟩) rest = solids := by
  refine ⟨[solids.get ⟨index, h⟩], solids.eraseIdx index, ?_, rfl, rfl, ?_, ?_⟩
  · unfold ordinal_extract
    rw [dif_pos h]
  · simp [List.length_eraseIdx, h]
  · exact insertIdx_get_eraseIdx solids index h

/-- Concrete instance of C9: seventeen solids, extraction at index 8. -/
theorem C9_ordinal_extract_witness :
    seventeen_solids.length = 17 ∧
    8 < seventeen_solids.length ∧
    ∃ ext rest, ordinal_extract seventeen_solids 8 = some (ext, rest) ∧
      ext = [seventeen_solids.get ⟨8, by simp [seventeen_solids]⟩] ∧
      rest = seventeen_solids.eraseIdx 8 ∧
      rest.length = seventeen_solids.length - 1 ∧
      List.insertIdx 8 (seventeen_solids.get ⟨8, by simp [seventeen_solids]⟩) rest =
        seventeen_solids := by
  have h8 : 8 < seventeen_solids.length := by simp [seventeen_solids]
  exact ⟨by simp [seventeen_solids], h8, C9_ordinal_extract_reconstructs seventeen_solids 8 h8⟩

/-- Mapping the centroid over a centroid-predicate filter commutes. -/
theorem filter_map_center (p : ℚ → Bool) (l : List SolidRec) :
    (l.filter (fun s => p s.center_x)).map SolidRec.center_x =
      (l.map SolidRec.center_x).filter p := by
  induction l with
  | nil => rfl
  | cons a as ih =>
    by_cases hp : p a.center_x
    · simp [List.filter_cons, hp, ih]
    · simp [List.filter_cons, hp, ih]

/-- `filter_map_center` at the low-group predicate. -/
theorem filter_lt_map_center (m : ℚ) (l : List SolidRec) :
    (l.filter (fun s => decide (s.center_x < m))).map SolidRec.center_x =
      (l.map SolidRec.center_x).filter (fun c => decide (c < m)) :=
  filter_map_center (fun c => decide (c < m)) l

/-- `filter_map_center` at the high-group predicate. -/
theorem filter_ge_map_center (m : ℚ) (l : List SolidRec) :
    (l.filter (fun s => decide (s.center_x ≥ m))).map SolidRec.center_x =
      (l.map SolidRec.center_x).filter (fun c => decide (c ≥ m)) :=
  filter_map_center (fun c => decide (c ≥ m)) l

/-- The split's group centroids are a function of the centroid list alone. -/
theorem split_left_right_centers (solids : List SolidRec) :
    (split_left_right solids).map
        (fun pr => (pr.1.map SolidRec.center_x, pr.2.map SolidRec.center_x)) =
      split_centers (solids.map SolidRec.center_x) := by
  cases solids with
  | nil => rfl
  | cons a as =>
    rw [split_left_right_eq (a :: as)
      ((as.map SolidRec.center_x).foldl min a.center_x)
      ((as.map SolidRec.center_x).foldl max a.center_x) rfl rfl]
    unfold split_centers
    rw [show list_min ((a :: as).map SolidRec.center_x) =
        some ((as.map SolidRec.center_x).foldl min a.center_x) from rfl]
    rw [show list_max ((a :: as).map SolidRec.center_x) =
        some ((as.map SolidRec.center_x).foldl max a.center_x) from rfl]
    simp only [Option.map_some']
    rw [filter_lt_map_center, filter_ge_map_center]

/-- C10: the per-solid coordinate used by Spatial Split is the midpoint of
the solid's axis-aligned bounding box on the X axis, `(xmin + xmax) / 2`, so
the split decision depends only on the bounding-box x-extremes: two
enumerations with the same x-extremes produce the same group centroids. -/
theorem C10_centroid_from_bbox (enumerated : List (Nat × BBox)) :
    (∀ r ∈ get_solids enumerated, r.center_x = (r.bbox.xmin + r.bbox.xmax) / 2) ∧
    (get_solids enumerated).map SolidRec.center_x =
      enumerated.map (fun p => (p.2.xmin + p.2.xmax) / 2) ∧
    ∀ other : List (Nat × BBox),
      enumerated.map (fun p => (p.2.xmin, p.2.xmax)) =
        other.map (fun p => (p.2.xmin, p.2.xmax)) →
      (split_left_right (get_solids enumerated)).map
          (fun pr => (pr.1.map SolidRec.center_x, pr.2.map SolidRec.center_x)) =
        (split_left_right (get_solids other)).map
          (fun pr => (pr.1.map SolidRec.center_x, pr.2.map SolidRec.center_x)) := by
  have key : ∀ l : List (Nat × BBox), (get_solids l).map SolidRec.center_x =
      (l.map (fun p => (p.2.xmin, p.2.xmax))).map (fun q => (q.1 + q.2) / 2) := by
    intro l
    simp only [get_solids, List.map_map]
    rfl
  refine ⟨?_, ?_, ?_⟩
  · intro r hr
    simp only [get_solids, List.mem_map] at hr
    obtain ⟨p, _, rfl⟩ := hr
    rfl
  · simp only [get_solids, List.map_map]
    rfl
  · intro other h
    rw [split_left_right_centers, split_left_right_centers]
    congr 1
    rw [key, key, h]

/-- Concrete instance of C10: a solid spanning x from -1 to 1 gets centroid 0,
and replacing the solid reference (same box extremes) leaves the split's
group centroids unchanged. -/
theorem C10_centroid_from_bbox_witness :
    (get_solids [(0, mkBox (-1) 1)]).map SolidRec.center_x =
      [(0, mkBox (-1) 1)].map (fun p => (p.2.xmin + p.2.xmax) / 2) ∧
    (split_left_right (get_solids [(0, mkBox (-1) 1)])).map
        (fun pr => (pr.1.map SolidRec.center_x, pr.2.map SolidRec.center_x)) =
      (split_left_right (get_solids [(9, mkBox (-1) 1)])).map
        (fun pr => (pr.1.map SolidRec.center_x, pr.2.map SolidRec.center_x)) := by
  have h := C10_centroid_from_bbox [(0, mkBox (-1) 1)]
  exact ⟨h.2.1, h.2.2 [(9, mkBox (-1) 1)] rfl⟩

end StepToStl
